/-
Verification of the Chronological Playback Engine of the Valentines-Love-Map
client (`TimeTravelMode.tsx` and `ambientMusic.ts`), as a shallow embedding in
Lean 4.  Pure functions of the source become Lean functions; the React state
and the module-level audio globals become explicit state records, and the
asynchronous primitives (animation frames, one-shot timers, the scheduler
interval) become events of small step machines.
-/
import Mathlib

/-! ## Data model (`src/client/src/lib/types.ts`) -/

/-- A memory pin.  `createdAt` is an epoch instant in milliseconds;
`memoryDate` is an optional ISO `YYYY-MM-DD` string. -/
structure Memory where
  id : String
  createdAt : Int
  memoryDate : Option String
  locationKey : String
  lat : Rat
  lng : Rat
  caption : String
  imageDataUrl : String
deriving DecidableEq, Repr

/-! ## Dates

`sortChronologically` feeds `memoryDate` through `new Date(s).getTime()`,
which for an ISO `YYYY-MM-DD` string yields UTC midnight of that civil date
in epoch milliseconds.  `daysFromCivil` is the standard civil-calendar to
epoch-day conversion used by every such implementation. -/

/-- Days since 1970-01-01 of the Gregorian date `y-m-d`.
All intermediate divisions act on non-negative operands for the dates this
application handles, so the rounding mode of `Int` division is immaterial. -/
def daysFromCivil (y m d : Int) : Int :=
  let y2 := if m ≤ 2 then y - 1 else y
  let era := (if 0 ≤ y2 then y2 else y2 - 399) / 400
  let yoe := y2 - era * 400
  let doy := (153 * (m + (if 2 < m then -3 else 9)) + 2) / 5 + d - 1
  let doe := yoe * 365 + yoe / 4 - yoe / 100 + doy
  era * 146097 + doe - 719468

/-- Split a character list at every `'-'`. -/
def splitOnDash : List Char → List (List Char)
  | [] => [[]]
  | c :: cs =>
    let rest := splitOnDash cs
    if c = '-' then [] :: rest
    else
      match rest with
      | [] => [[c]]
      | g :: gs => (c :: g) :: gs

/-- Value of a decimal digit character. -/
def charDigit? (c : Char) : Option Nat :=
  if '0' ≤ c ∧ c ≤ '9' then some (c.toNat - '0'.toNat) else none

/-- Numeric value of a non-empty all-digit character list. -/
def digitsToNat? : List Char → Option Nat
  | [] => none
  | cs => cs.foldl (fun acc c => acc.bind fun n => (charDigit? c).map fun d => n * 10 + d)
      (some 0)

/-- `new Date(s).getTime()` for a well-formed ISO `YYYY-MM-DD` string: UTC
midnight of that date in epoch ms.  Strings of any other shape (and
out-of-range month/day fields) denote `NaN`/an invalid date in JS; the model
returns `none` for them and such records are outside the input space of
every claim below. -/
def parseISODateMs (s : String) : Option Int :=
  match splitOnDash s.data with
  | [y, m, d] =>
    match digitsToNat? y, digitsToNat? m, digitsToNat? d with
    | some yn, some mn, some dn =>
        if y.length = 4 ∧ m.length = 2 ∧ d.length = 2 ∧
            1 ≤ mn ∧ mn ≤ 12 ∧ 1 ≤ dn ∧ dn ≤ 31 then
          some (daysFromCivil (yn : Int) (mn : Int) (dn : Int) * 86400000)
        else none
    | _, _, _ => none
  | _ => none

/-- The sort key of `sortChronologically`:
`a.memoryDate ? new Date(a.memoryDate).getTime() : a.createdAt`.
A present but empty string is falsy in JS, hence falls back to `createdAt`.
The `getD` fallback only makes the function total on malformed date strings
(JS `NaN`), which no claim exercises. -/
def effectiveTimestamp (m : Memory) : Int :=
  match m.memoryDate with
  | some s => if s = "" then m.createdAt else (parseISODateMs s).getD m.createdAt
  | none => m.createdAt

/-! ## Chronological sorter (`TimeTravelMode.tsx`, `sortChronologically`)

The source copies the input (`[...memories]`) and calls the built-in
`Array.prototype.sort` with the comparator `dateA - dateB`.  ES2019 requires
`sort` to be stable, and for a consistent comparator the output is uniquely
determined: the stable sort by the ordering `effectiveTimestamp a ≤
effectiveTimestamp b`, which `List.insertionSort` computes. -/

/-- The ordering induced by the comparator `dateA - dateB`. -/
def memLE (a b : Memory) : Prop := effectiveTimestamp a ≤ effectiveTimestamp b

instance : DecidableRel memLE := fun a b =>
  inferInstanceAs (Decidable (effectiveTimestamp a ≤ effectiveTimestamp b))

instance : IsTotal Memory memLE := ⟨fun _ _ => Int.le_total _ _⟩

instance : IsTrans Memory memLE := ⟨fun _ _ _ => Int.le_trans⟩

/-- `sortChronologically`: copy the input, stably sort the copy by effective
timestamp, return the copy. -/
def sortChronologically (memories : List Memory) : List Memory :=
  List.insertionSort memLE memories

/-! ### Heap-level view of the call

To state framing ("the caller's array is not mutated") we also give the call
its JS-object semantics: arrays live in a heap, `[...memories]` allocates a
fresh array with copied contents, and `.sort` mutates only that fresh array. -/

/-- A heap of JS arrays of memories; an array is identified by its index. -/
structure JsHeap where
  arrays : List (List Memory)
deriving DecidableEq, Repr

/-- Contents of array `i`. -/
def readArr (h : JsHeap) (i : Nat) : List Memory := h.arrays.getD i []

/-- `[...l]`: allocate a fresh array holding `l`; returns its id. -/
def allocArr (h : JsHeap) (l : List Memory) : JsHeap × Nat :=
  (⟨h.arrays ++ [l]⟩, h.arrays.length)

/-- In-place overwrite of array `i`. -/
def writeArr (h : JsHeap) (i : Nat) (l : List Memory) : JsHeap :=
  ⟨h.arrays.set i l⟩

/-- Heap-level `sortChronologically(memories)`: `[...memories]` allocates a
fresh copy, `.sort(cmp)` mutates that copy in place and returns it. -/
def sortChronologicallyCall (h : JsHeap) (arg : Nat) : JsHeap × Nat :=
  let alloc := allocArr h (readArr h arg)
  let h2 := writeArr alloc.1 alloc.2 (List.insertionSort memLE (readArr alloc.1 alloc.2))
  (h2, alloc.2)

/-! ## Playback state machine (`TimeTravelMode.tsx`, component state)

The component state of `TimeTravelMode`.  `currentIndex = -1` means "not
started".  Handlers return the successor state plus the list of commands
they issue to external collaborators (camera, audio); the path-drawing hook
is modelled separately as a function of the state it observes. -/

structure ModeState where
  currentIndex : Int
  isAutoPlaying : Bool
  musicEnabled : Bool
  isStarted : Bool
  isTransitioning : Bool
deriving DecidableEq, Repr

/-- The component's initial state. -/
def initMode : ModeState :=
  { currentIndex := -1, isAutoPlaying := true, musicEnabled := true,
    isStarted := false, isTransitioning := false }

/-- Commands issued to external collaborators. -/
inductive Effect where
  | flyTo (lat lng : Rat) (zoom : Nat) (durationSec : Rat)
  | startAudio
  | stopAudio
deriving DecidableEq, Repr

/-- `TRAVEL_ZOOM = 15`. -/
def TRAVEL_ZOOM : Nat := 15

/-- `flyToMemory(index)`: guard `index < 0 || index >= sortedMemories.length`,
then `mapInstance.flyTo([lat, lng], TRAVEL_ZOOM, { duration: 2, ... })`. -/
def flyToMemory (mems : List Memory) (index : Int) : List Effect :=
  if 0 ≤ index ∧ index < (mems.length : Int) then
    match mems[index.toNat]? with
    | some m => [Effect.flyTo m.lat m.lng TRAVEL_ZOOM 2]
    | none => []
  else []

/-- `handleTransitionComplete`: `setIsTransitioning(false)` then
`setCurrentIndex(prev => prev + 1)`. -/
def handleTransitionComplete (s : ModeState) : ModeState :=
  { s with isTransitioning := false, currentIndex := s.currentIndex + 1 }

/-- The `goNext` callback as captured by the render whose state was `snap`,
applied against the current state `m`: the guards read the closed-over
values of `snap`, while `setIsTransitioning(true)` updates `m`. -/
def goNextWith (mems : List Memory) (snap m : ModeState) : ModeState :=
  if snap.isTransitioning then m
  else if snap.currentIndex < (mems.length : Int) - 1 then
    { m with isTransitioning := true }
  else m

/-- `goNext()` invoked on a fresh render: snapshot and current state agree. -/
def goNext (mems : List Memory) (s : ModeState) : ModeState :=
  goNextWith mems s s

/-- `goPrev()`: no-op while transitioning or at index `≤ 0`; otherwise
decrement the index in the same call and fly directly to the new point. -/
def goPrev (mems : List Memory) (s : ModeState) : ModeState × List Effect :=
  if s.isTransitioning then (s, [])
  else if 0 < s.currentIndex then
    let prev := s.currentIndex - 1
    ({ s with currentIndex := prev }, flyToMemory mems prev)
  else (s, [])

/-- `startJourney()`: `setIsStarted(true)`, `setCurrentIndex(0)`, and
`startMusic()` when `musicEnabled`. -/
def startJourney (s : ModeState) : ModeState × List Effect :=
  ({ s with isStarted := true, currentIndex := 0 },
   if s.musicEnabled then [Effect.startAudio] else [])

/-- The start operation as the component exposes it.  When the sorted
timeline is empty the component body runs
`if (sortedMemories.length === 0) return null;`, so no start control exists
and the operation cannot take effect; otherwise the control invokes
`startJourney`. -/
def clickStart (sortedMemories : List Memory) (s : ModeState) : ModeState × List Effect :=
  if sortedMemories.length = 0 then (s, [])
  else startJourney s

/-- The skip-to-end control: no-op while transitioning; otherwise jump to the
last index, fly there directly, and stop autoplay. -/
def skipToEnd (mems : List Memory) (s : ModeState) : ModeState × List Effect :=
  if s.isTransitioning then (s, [])
  else
    let last : Int := (mems.length : Int) - 1
    ({ s with currentIndex := last, isAutoPlaying := false }, flyToMemory mems last)

/-! ## Path-drawing hook (`useAnimatedGlowingPath`), branch selection

The effect animates a segment exactly when
`isTransitioning && currentIndex < sortedMemories.length - 1`; in every other
state it only shows a static pulse at the current position.  The animating
branch is the one that performs the `flyTo` + 400 ms pause + tick ceremony. -/

inductive PathPlan where
  | animateSegment (fromIdx toIdx : Int)
  | staticOnly
deriving DecidableEq, Repr

/-- Which branch the path-drawing effect takes for the state it observes. -/
def pathHookPlan (mems : List Memory) (currentIndex : Int) (isTransitioning : Bool) : PathPlan :=
  if isTransitioning = true ∧ currentIndex < (mems.length : Int) - 1 then
    .animateSegment currentIndex (currentIndex + 1)
  else .staticOnly

/-! ## Segment animator (`useAnimatedGlowingPath`, transition branch)

The transition branch of the effect runs: `map.flyTo(from, ...)`; on
`moveend` (if not cancelled) a 400 ms `setTimeout`; its callback (if not
cancelled) requests the first animation frame; each `animate(now)` tick
returns immediately when `cancelRef.current` is set, otherwise advances
`rawT = min(elapsed / ANIM_DURATION, 1)` and either requests the next frame
(`rawT < 1`) or calls `onTransitionComplete()`.  The effect's cleanup sets
`cancelRef.current = true` and cancels the pending animation frame (it does
not clear the 400 ms timeout, whose callback re-checks the flag).

The per-tick geometry (easing, interpolation, polyline/camera updates) acts
only on external map layers and does not influence control flow, so it is
not tracked by the machine. -/

/-- `ANIM_DURATION = 5000` (ms). -/
def ANIM_DURATION : Rat := 5000

structure AnimState where
  /-- The owning component's state; `onTransitionComplete` mutates it. -/
  mode : ModeState
  /-- `cancelRef.current`. -/
  cancelled : Bool
  /-- The 400 ms pause `setTimeout` is pending. -/
  pauseTimer : Bool
  /-- `rafRef.current`: an animation-frame callback is scheduled. -/
  pendingTick : Bool
  /-- The closure's `startTime` variable. -/
  startTime : Option Rat
  /-- Ghost counter: executed `animate` bodies. -/
  ticksRun : Nat
  /-- Ghost counter: `onTransitionComplete()` deliveries. -/
  completions : Nat
deriving DecidableEq, Repr

inductive AnimEvent where
  /-- The map's `moveend` after `flyTo` reaches the segment start. -/
  | flyEnd
  /-- The 400 ms pause timeout fires. -/
  | pauseFire
  /-- The host delivers an animation frame at wall-clock `now` (ms). -/
  | frame (now : Rat)
deriving DecidableEq, Repr

def animStep (s : AnimState) : AnimEvent → AnimState
  | .flyEnd =>
      if s.cancelled then s else { s with pauseTimer := true }
  | .pauseFire =>
      if s.pauseTimer then
        let s1 := { s with pauseTimer := false }
        if s1.cancelled then s1 else { s1 with pendingTick := true }
      else s
  | .frame now =>
      if s.pendingTick then
        let s1 := { s with pendingTick := false }
        if s1.cancelled then s1
        else
          let start := s1.startTime.getD now
          let elapsed := now - start
          let rawT := min (elapsed / ANIM_DURATION) 1
          let s2 := { s1 with startTime := some start, ticksRun := s1.ticksRun + 1 }
          if rawT < 1 then { s2 with pendingTick := true }
          else { s2 with mode := handleTransitionComplete s2.mode,
                         completions := s2.completions + 1 }
      else s

/-- The effect's cleanup: set the cancellation flag and cancel the pending
animation frame (`cancelAnimationFrame` in `cleanupLayers`). -/
def cancelAnim (s : AnimState) : AnimState :=
  { s with cancelled := true, pendingTick := false }

/-! ## Autoplay timer (`TimeTravelMode.tsx`, autoplay effect)

The effect guards on `isStarted && isAutoPlaying && currentIndex >= 0 &&
!isTransitioning`, then schedules a 4 s timeout whose callback closes over
the render's values; the cleanup clears the timeout.  Because every value the
callback reads is in the dependency array, any state change first runs the
cleanup (cancelling the pending timer) and then re-arms from the new state.
`Host` pairs the component state with the pending timer, tagged by the state
snapshot its callback closed over. -/

/-- Arm the autoplay timer for state `s`: `some s` exactly when the effect's
guard passes, tagging the timer with the snapshot its callback captures. -/
def armTimer (s : ModeState) : Option ModeState :=
  if s.isStarted = true ∧ s.isAutoPlaying = true ∧ 0 ≤ s.currentIndex ∧
      s.isTransitioning = false then some s
  else none

/-- The timer callback scheduled under snapshot `snap`, fired against the
current state `m`: `if (currentIndex < sortedMemories.length - 1) goNext();
else setIsAutoPlaying(false);` with the reads taken from `snap` (including
those inside the captured `goNext`) and the writes applied to `m`. -/
def autoplayFireWith (mems : List Memory) (snap m : ModeState) : ModeState :=
  if snap.currentIndex < (mems.length : Int) - 1 then goNextWith mems snap m
  else { m with isAutoPlaying := false }

structure Host where
  mode : ModeState
  timer : Option ModeState
deriving DecidableEq, Repr

/-- Commit a new state and re-run the autoplay effect: the cleanup clears any
pending timeout, the effect body re-arms it from the new state. -/
def runAutoplayEffect (m : ModeState) : Host :=
  ⟨m, armTimer m⟩

inductive HostEvent where
  | nextClick
  | prevClick
  | toggleAutoClick
  | skipEndClick
  | transitionDone
  | timerFire
deriving DecidableEq, Repr

def hostStep (mems : List Memory) (h : Host) : HostEvent → Host
  | .nextClick => runAutoplayEffect (goNext mems h.mode)
  | .prevClick => runAutoplayEffect (goPrev mems h.mode).1
  | .toggleAutoClick =>
      runAutoplayEffect { h.mode with isAutoPlaying := !h.mode.isAutoPlaying }
  | .skipEndClick => runAutoplayEffect (skipToEnd mems h.mode).1
  | .transitionDone => runAutoplayEffect (handleTransitionComplete h.mode)
  | .timerFire =>
      match h.timer with
      | none => h
      | some snap => runAutoplayEffect (autoplayFireWith mems snap h.mode)

/-! ## Ambient audio loop (`src/client/src/lib/ambientMusic.ts`)

The module keeps four globals: `audioCtx`, `masterGain`, `isPlaying`, and
`schedulerTimer`.  `startMusic` builds a fresh AudioContext and scheduler
interval, overwriting the `schedulerTimer` global without clearing a previous
value.  `stopMusic` ramps the master gain to 0 over 1.5 s, schedules a
teardown `setTimeout` for 2 s later that captures the old context in a local
`const ctx` but reads the **global** `schedulerTimer`, then nulls the
globals.  Allocated contexts and intervals are numbered by `nextId`; times
are epoch ms. -/

/-- Fade-out ramp length: `linearRampToValueAtTime(0, now + 1.5)`. -/
def FADE_OUT_MS : Int := 1500

/-- Teardown delay: `setTimeout(..., 2000)`. -/
def TEARDOWN_DELAY_MS : Int := 2000

structure AudioM where
  /-- `audioCtx`: id of the context the global points at, if any. -/
  ctxLive : Option Nat
  /-- `masterGain`: id of the context owning the master gain node, if any. -/
  masterGain : Option Nat
  /-- `isPlaying`. -/
  isPlaying : Bool
  /-- `schedulerTimer`: id of the interval the global points at, if any. -/
  schedulerTimer : Option Nat
  /-- Fresh-id source for contexts and intervals. -/
  nextId : Nat
  /-- Pending `stopMusic` teardown timeouts: (fire time, captured ctx id). -/
  pendingTeardown : List (Int × Nat)
  /-- Ghost: interval ids passed to `clearInterval` so far. -/
  clearedIntervals : List Nat
  /-- Ghost: context ids on which `close()` was called. -/
  closedCtxs : List Nat
  /-- Time at which the last fade-out ramp reaches silence. -/
  fadeOutEnd : Option Int
deriving DecidableEq, Repr

/-- The module's state at load: all globals null / false. -/
def initAudio : AudioM :=
  { ctxLive := none, masterGain := none, isPlaying := false,
    schedulerTimer := none, nextId := 0, pendingTeardown := [],
    clearedIntervals := [], closedCtxs := [], fadeOutEnd := none }

/-- `startMusic()`.  `ctorRefused` models the host environment
refusing `new AudioContext()` (the constructor throwing); the source has no
try/catch around it, so the `.error` result means the exception escaped to
the caller, before any global was written.  On success a fresh context and a
fresh scheduler interval are installed; the previous `schedulerTimer` value,
if any, is overwritten without `clearInterval`. -/
def startMusicM (ctorRefused : Bool) (s : AudioM) :
    AudioM × Except Unit Unit :=
  if s.isPlaying then (s, .ok ())
  else if ctorRefused then (s, .error ())
  else
    let c := s.nextId
    let t := s.nextId + 1
    ({ s with ctxLive := some c, masterGain := some c, isPlaying := true,
              schedulerTimer := some t, nextId := s.nextId + 2 },
     .ok ())

/-- `stopMusic()` at time `now`: no-op unless `isPlaying && audioCtx &&
masterGain`; otherwise ramp the gain to 0 by `now + 1.5 s`, schedule the
teardown timeout for `now + 2 s` capturing the current context, and null
`audioCtx`/`masterGain`/`isPlaying`.  The `schedulerTimer` global is left
untouched — only the delayed teardown clears it. -/
def stopMusicM (now : Int) (s : AudioM) : AudioM :=
  if s.isPlaying = false ∨ s.ctxLive = none ∨ s.masterGain = none then s
  else
    match s.ctxLive with
    | none => s
    | some c =>
        { s with fadeOutEnd := some (now + FADE_OUT_MS),
                 pendingTeardown := s.pendingTeardown ++ [(now + TEARDOWN_DELAY_MS, c)],
                 ctxLive := none, masterGain := none, isPlaying := false }

/-- The teardown timeout scheduled by `stopMusic` fires: it clears whatever
interval the **global** `schedulerTimer` currently holds (not necessarily the
one belonging to the captured context) and closes the captured context. -/
def fireTeardown (task : Int × Nat) (s : AudioM) : AudioM :=
  if task ∈ s.pendingTeardown then
    let s1 := { s with pendingTeardown := s.pendingTeardown.erase task }
    match s1.schedulerTimer with
    | some t =>
        { s1 with clearedIntervals := s1.clearedIntervals ++ [t],
                  schedulerTimer := none,
                  closedCtxs := s1.closedCtxs ++ [task.2] }
    | none => { s1 with closedCtxs := s1.closedCtxs ++ [task.2] }
  else s

/-- `isMusicPlaying()`. -/
def isMusicPlayingM (s : AudioM) : Bool := s.isPlaying

/-- The component's `toggleMusic` callback at time `now`, with the current
`musicEnabled` value `enabled`: if `isMusicPlaying()` then `stopMusic()` and
`setMusicEnabled(false)`, else `startMusic()` and `setMusicEnabled(true)`.
When `startMusic` throws, `setMusicEnabled(true)` is never reached and the
exception escapes the callback. -/
def toggleMusicM (ctorRefused : Bool) (now : Int) (enabled : Bool) (s : AudioM) :
    (Bool × AudioM) × Except Unit Unit :=
  if isMusicPlayingM s then ((false, stopMusicM now s), .ok ())
  else
    let r := startMusicM ctorRefused s
    match r.2 with
    | .ok _ => ((true, r.1), .ok ())
    | .error _ => ((enabled, r.1), .error ())

/-! ## Concrete inputs used by scenario conjuncts and witnesses -/

def memJan2024 : Memory :=
  { id := "a", createdAt := 1, memoryDate := some "2024-01-01", locationKey := "x",
    lat := 1.28, lng := 103.85, caption := "first date", imageDataUrl := "" }

def memJun2024 : Memory :=
  { id := "b", createdAt := 2, memoryDate := some "2024-06-15", locationKey := "y",
    lat := 1.30, lng := 103.80, caption := "picnic", imageDataUrl := "" }

def memDec2023 : Memory :=
  { id := "c", createdAt := 3, memoryDate := some "2023-12-25", locationKey := "z",
    lat := 1.25, lng := 103.82, caption := "christmas", imageDataUrl := "" }

/-- A three-record timeline used by witnesses. -/
def mems3 : List Memory := [memDec2023, memJan2024, memJun2024]

/-- Started, viewing the first record, idle. -/
def startedMode : ModeState :=
  { currentIndex := 0, isAutoPlaying := true, musicEnabled := true,
    isStarted := true, isTransitioning := false }

/-- Started, viewing the middle record, idle. -/
def midMode : ModeState :=
  { currentIndex := 1, isAutoPlaying := true, musicEnabled := true,
    isStarted := true, isTransitioning := false }

/-- Started, viewing the last of three records, idle. -/
def lastMode3 : ModeState :=
  { currentIndex := 2, isAutoPlaying := true, musicEnabled := true,
    isStarted := true, isTransitioning := false }

/-- A mid-flight animation session over `startedMode`. -/
def animMid : AnimState :=
  { mode := { startedMode with isTransitioning := true }, cancelled := false,
    pauseTimer := false, pendingTick := true, startTime := some 1000,
    ticksRun := 5, completions := 0 }

/-- Consistency of the audio module globals: whenever `isPlaying` is set, a
live context and a master gain exist.  `startMusic` establishes all three
together and `stopMusic` clears all three together, so every reachable
module state satisfies this. -/
def AudioWF (s : AudioM) : Prop :=
  s.isPlaying = true → s.ctxLive ≠ none ∧ s.masterGain ≠ none

/-- The module state right after a successful `startMusic()` from load. -/
def audioActive : AudioM := (startMusicM false initAudio).1

/-! ## Claims -/

/-- Stability of `sortChronologically`, stated per key: the records whose
effective timestamp equals `t` appear in the output exactly in their input
order.  Shared helper for the C3 theorem. -/
theorem sortChronologically_filter_key (l : List Memory) (t : Int) :
    (sortChronologically l).filter (fun m => decide (effectiveTimestamp m = t))
      = l.filter (fun m => decide (effectiveTimestamp m = t)) := by
  set p : Memory → Bool := fun m => decide (effectiveTimestamp m = t) with hp
  have hpair : (l.filter p).Pairwise memLE := by
    apply List.pairwise_of_forall_mem_list
    intro a ha b hb
    have ha2 := (List.mem_filter.mp ha).2
    have hb2 := (List.mem_filter.mp hb).2
    rw [hp] at ha2 hb2
    simp only [decide_eq_true_eq] at ha2 hb2
    unfold memLE
    rw [ha2, hb2]
  have hsub : List.Sublist (l.filter p) (sortChronologically l) :=
    List.sublist_insertionSort hpair (List.filter_sublist l)
  have hsub2 : List.Sublist (l.filter p) ((sortChronologically l).filter p) := by
    have h2 := hsub.filter p
    have h3 : (l.filter p).filter p = l.filter p := by
      rw [List.filter_filter]
      apply List.filter_congr
      intro a _
      exact Bool.and_self (p a)
    rwa [h3] at h2
  have hlen : ((sortChronologically l).filter p).length = (l.filter p).length :=
    ((List.perm_insertionSort memLE l).filter p).length_eq
  exact (hsub2.eq_of_length hlen.symm).symm

/-- C3: `sortChronologically` (a Lean function, hence pure and deterministic)
is a stable chronological sort: the output is non-decreasing in effective
timestamp; the records at each fixed effective timestamp keep their relative
input order; sorting is idempotent; and three records dated `2024-01-01`,
`2024-06-15`, `2023-12-25` sort to `[2023-12-25, 2024-01-01, 2024-06-15]`. -/
theorem sortChronologically_stable_sorted_idempotent :
    (∀ l : List Memory, (sortChronologically l).Sorted memLE)
    ∧ (∀ (l : List Memory) (t : Int),
        (sortChronologically l).filter (fun m => decide (effectiveTimestamp m = t))
          = l.filter (fun m => decide (effectiveTimestamp m = t)))
    ∧ (∀ l : List Memory,
        sortChronologically (sortChronologically l) = sortChronologically l)
    ∧ sortChronologically [memJan2024, memJun2024, memDec2023]
        = [memDec2023, memJan2024, memJun2024] := by
  refine ⟨fun l => List.sorted_insertionSort memLE l,
          sortChronologically_filter_key,
          fun l => (List.sorted_insertionSort memLE l).insertionSort_eq,
          rfl⟩

/-- C10: at the heap level, `sortChronologically` returns a freshly allocated
array and leaves the caller's array untouched: after the call the argument
array has its original contents, the returned array is a different object,
and it holds the stable chronological sort of the input. -/
theorem sortChronologically_input_unchanged (h : JsHeap) (arg : Nat)
    (harg : arg < h.arrays.length) :
    readArr (sortChronologicallyCall h arg).1 arg = readArr h arg
    ∧ (sortChronologicallyCall h arg).2 ≠ arg
    ∧ readArr (sortChronologicallyCall h arg).1 (sortChronologicallyCall h arg).2
        = sortChronologically (readArr h arg) := by
  have hne : h.arrays.length ≠ arg := Nat.ne_of_gt harg
  have hc : readArr ⟨h.arrays ++ [readArr h arg]⟩ h.arrays.length = readArr h arg := by
    simp [readArr, List.getD_eq_getElem?_getD, List.getElem?_concat_length]
  refine ⟨?_, hne, ?_⟩
  · show readArr ⟨(h.arrays ++ [readArr h arg]).set h.arrays.length _⟩ arg = readArr h arg
    simp only [readArr, List.getD_eq_getElem?_getD, List.getElem?_set_ne hne,
      List.getElem?_append_left harg]
  · show readArr ⟨(h.arrays ++ [readArr h arg]).set h.arrays.length
        (List.insertionSort memLE (readArr ⟨h.arrays ++ [readArr h arg]⟩ h.arrays.length))⟩
        h.arrays.length = sortChronologically (readArr h arg)
    rw [hc]
    have hlt : h.arrays.length < (h.arrays ++ [readArr h arg]).length := by
      simp
    simp [readArr, List.getD_eq_getElem?_getD, List.getElem?_set_self hlt,
      sortChronologically]

/-- Witness for C10 at a concrete one-array heap. -/
theorem sortChronologically_input_unchanged_witness :
    0 < (JsHeap.mk [[memJan2024, memDec2023]]).arrays.length
    ∧ readArr (sortChronologicallyCall ⟨[[memJan2024, memDec2023]]⟩ 0).1 0
        = readArr ⟨[[memJan2024, memDec2023]]⟩ 0 :=
  ⟨by decide,
   (sortChronologically_input_unchanged ⟨[[memJan2024, memDec2023]]⟩ 0 (by decide)).1⟩

/-- C1: `goNext` is a no-op while a transition is active; `goNext` itself
never changes `currentIndex` (the index advances only when the animator's
completion callback runs); a transition begun by `goNext` that runs to
completion advances the index by exactly one and clears the transition flag;
and any number of repeated `goNext` calls during that one active transition
leave the state exactly as after the call that began it, so one completed
animation advances the index exactly once. -/
theorem goNext_transition_protocol (mems : List Memory) (s : ModeState) (k : Nat)
    (hT : s.isTransitioning = false)
    (hlt : s.currentIndex < (mems.length : Int) - 1) :
    (∀ s2 : ModeState, s2.isTransitioning = true → goNext mems s2 = s2)
    ∧ (∀ s2 : ModeState, (goNext mems s2).currentIndex = s2.currentIndex)
    ∧ ((fun t => goNext mems t)^[k] (goNext mems s) = goNext mems s)
    ∧ (handleTransitionComplete (goNext mems s)).currentIndex = s.currentIndex + 1
    ∧ (handleTransitionComplete (goNext mems s)).isTransitioning = false := by
  have hnoop : ∀ s2 : ModeState, s2.isTransitioning = true → goNext mems s2 = s2 := by
    intro s2 h2
    simp [goNext, goNextWith, h2]
  have hbegin : goNext mems s = { s with isTransitioning := true } := by
    simp [goNext, goNextWith, hT, hlt]
  refine ⟨hnoop, ?_, ?_, ?_, ?_⟩
  · intro s2
    by_cases h2 : s2.isTransitioning = true
    · rw [hnoop s2 h2]
    · simp only [goNext, goNextWith]
      split
      · rfl
      · split <;> rfl
  · exact Function.iterate_fixed (hnoop _ (by rw [hbegin])) k
  · rw [hbegin]; rfl
  · rw [hbegin]; rfl

/-- Witness for C1 on the three-record timeline from its first record. -/
theorem goNext_transition_protocol_witness :
    (startedMode.isTransitioning = false
      ∧ startedMode.currentIndex < (mems3.length : Int) - 1)
    ∧ (handleTransitionComplete (goNext mems3 startedMode)).currentIndex
        = startedMode.currentIndex + 1 :=
  ⟨by decide,
   (goNext_transition_protocol mems3 startedMode 2 (by decide) (by decide)).2.2.2.1⟩

/-- C9: `goPrev` is a no-op while transitioning and at index 0; otherwise it
decrements `currentIndex` by one in the same call (not deferred to any
completion callback), issues exactly one direct camera fly to the new current
point, and the path-drawing hook — which ceremonies only in the transitioning
branch — stays in its static branch afterwards. -/
theorem goPrev_synchronous_direct (mems : List Memory) (s : ModeState) (m : Memory)
    (hT : s.isTransitioning = false) (h0 : 0 < s.currentIndex)
    (hm : mems[(s.currentIndex - 1).toNat]? = some m) :
    (∀ s2 : ModeState, s2.isTransitioning = true → goPrev mems s2 = (s2, []))
    ∧ (∀ s2 : ModeState, s2.currentIndex = 0 → goPrev mems s2 = (s2, []))
    ∧ (goPrev mems s).1 = { s with currentIndex := s.currentIndex - 1 }
    ∧ (goPrev mems s).1.isTransitioning = false
    ∧ (goPrev mems s).2 = [Effect.flyTo m.lat m.lng TRAVEL_ZOOM 2]
    ∧ pathHookPlan mems (goPrev mems s).1.currentIndex (goPrev mems s).1.isTransitioning
        = PathPlan.staticOnly := by
  have hlen : (s.currentIndex - 1).toNat < mems.length := by
    have := List.getElem?_eq_some.mp hm
    exact this.1
  have hran : 0 ≤ s.currentIndex - 1 ∧ s.currentIndex - 1 < (mems.length : Int) := by
    constructor
    · omega
    · have hcast : ((s.currentIndex - 1).toNat : Int) = s.currentIndex - 1 :=
        Int.toNat_of_nonneg (by omega)
      have := Int.ofNat_lt.mpr hlen
      omega
  have hstep : goPrev mems s
      = ({ s with currentIndex := s.currentIndex - 1 }, flyToMemory mems (s.currentIndex - 1)) := by
    simp [goPrev, hT, h0]
  refine ⟨?_, ?_, ?_, ?_, ?_, ?_⟩
  · intro s2 h2
    simp [goPrev, h2]
  · intro s2 h2
    simp [goPrev, h2]
  · rw [hstep]
  · rw [hstep]
    exact hT
  · rw [hstep]
    simp only [flyToMemory, if_pos hran, hm]
  · rw [hstep]
    simp [pathHookPlan, hT]

/-- Witness for C9 at the middle of the three-record timeline. -/
theorem goPrev_synchronous_direct_witness :
    (midMode.isTransitioning = false ∧ 0 < midMode.currentIndex
      ∧ mems3[(midMode.currentIndex - 1).toNat]? = some memDec2023)
    ∧ (goPrev mems3 midMode).1 = { midMode with currentIndex := midMode.currentIndex - 1 } :=
  ⟨⟨by decide, by decide, rfl⟩,
   (goPrev_synchronous_direct mems3 midMode memDec2023 (by decide) (by decide)
      rfl).2.2.1⟩

/-- C7: with an empty timeline the component renders no start control, so the
exposed start operation leaves every state unchanged and issues no effect (in
particular no audio start); the state remains the initial
`{started := false, currentIndex := -1}`.  An empty record set indeed yields
an empty sorted timeline. -/
theorem start_empty_timeline_noop :
    (∀ s : ModeState, clickStart [] s = (s, []))
    ∧ sortChronologically [] = []
    ∧ (clickStart [] initMode).1.isStarted = false
    ∧ (clickStart [] initMode).1.currentIndex = -1 :=
  ⟨fun _ => rfl, rfl, rfl, rfl⟩

/-- Shared helper: a single host step preserves the autoplay-effect invariant
"the pending timer is exactly the one armed for the current state". -/
theorem hostStep_timer_invariant (mems : List Memory) (h : Host) (e : HostEvent)
    (hI : h.timer = armTimer h.mode) :
    (hostStep mems h e).timer = armTimer (hostStep mems h e).mode := by
  cases e with
  | nextClick => rfl
  | prevClick => rfl
  | toggleAutoClick => rfl
  | skipEndClick => rfl
  | transitionDone => rfl
  | timerFire =>
    cases htm : h.timer with
    | none =>
      simp only [hostStep, htm]
      exact htm ▸ hI
    | some snap =>
      simp only [hostStep, htm, runAutoplayEffect]

/-- C4: the autoplay schedule can never be stale — after any sequence of user
actions, completions and timer firings, the pending timer (if any) was armed
for exactly the current state, because the effect's cleanup cancels the old
timeout before any re-arm; a timer firing at the last index only switches
`isAutoPlaying` off, leaving index and transition flag untouched; and a timer
firing while a next record exists performs exactly the manual `goNext`
advance path. -/
theorem autoplay_timer_protocol (mems : List Memory) (m : ModeState)
    (hlast : m.currentIndex = (mems.length : Int) - 1) :
    (∀ (m0 : ModeState) (events : List HostEvent),
        (events.foldl (hostStep mems) (runAutoplayEffect m0)).timer
          = armTimer (events.foldl (hostStep mems) (runAutoplayEffect m0)).mode)
    ∧ ((autoplayFireWith mems m m).isAutoPlaying = false
        ∧ (autoplayFireWith mems m m).isTransitioning = m.isTransitioning
        ∧ (autoplayFireWith mems m m).currentIndex = m.currentIndex)
    ∧ (∀ m2 : ModeState, m2.currentIndex < (mems.length : Int) - 1 →
        autoplayFireWith mems m2 m2 = goNext mems m2) := by
  have fold_inv : ∀ (events : List HostEvent) (h : Host),
      h.timer = armTimer h.mode →
      (events.foldl (hostStep mems) h).timer
        = armTimer (events.foldl (hostStep mems) h).mode := by
    intro events
    induction events with
    | nil => intro h hI; exact hI
    | cons e es ih =>
      intro h hI
      exact ih _ (hostStep_timer_invariant mems h e hI)
  refine ⟨fun m0 events => fold_inv events _ rfl, ?_, ?_⟩
  · have hfire : autoplayFireWith mems m m = { m with isAutoPlaying := false } := by
      simp [autoplayFireWith, hlast]
    rw [hfire]
    exact ⟨rfl, rfl, rfl⟩
  · intro m2 h2
    simp [autoplayFireWith, goNext, h2]

/-- Witness for C4 at the last index of the three-record timeline. -/
theorem autoplay_timer_protocol_witness :
    lastMode3.currentIndex = (mems3.length : Int) - 1
    ∧ (autoplayFireWith mems3 lastMode3 lastMode3).isAutoPlaying = false :=
  ⟨by decide, (autoplay_timer_protocol mems3 lastMode3 (by decide)).2.1.1⟩

/-- Shared helper: once the cancellation flag is set, a single animator event
changes none of the observables (owning component state, executed ticks,
delivered completions) and leaves the flag set. -/
theorem animStep_cancelled (s : AnimState) (e : AnimEvent) (hc : s.cancelled = true) :
    (animStep s e).mode = s.mode
    ∧ (animStep s e).ticksRun = s.ticksRun
    ∧ (animStep s e).completions = s.completions
    ∧ (animStep s e).cancelled = true := by
  cases e with
  | flyEnd => simp [animStep, hc]
  | pauseFire =>
    by_cases hp : s.pauseTimer = true
    · simp [animStep, hp, hc]
    · simp only [Bool.not_eq_true] at hp
      simp [animStep, hp, hc]
  | frame now =>
    by_cases hp : s.pendingTick = true
    · simp [animStep, hp, hc]
    · simp only [Bool.not_eq_true] at hp
      simp [animStep, hp, hc]

/-- C2: after the owning effect's teardown sets the cancellation flag (and
cancels the pending animation frame), no sequence of later events — the
camera-arrival listener, the 400 ms pause timeout, any number of animation
frames — runs another tick body, delivers the completion signal, or changes
the owning component state (in particular `currentIndex`); and a single event
can only run a tick or deliver a completion when the flag was unset when it
fired, i.e. the flag gates every scheduled tick and the completion signal. -/
theorem animator_cancellation (s : AnimState) (events : List AnimEvent)
    (s2 : AnimState) (e : AnimEvent) (hc2 : s2.cancelled = true) :
    ((events.foldl animStep (cancelAnim s)).mode = s.mode
      ∧ (events.foldl animStep (cancelAnim s)).ticksRun = s.ticksRun
      ∧ (events.foldl animStep (cancelAnim s)).completions = s.completions)
    ∧ ((animStep s2 e).mode = s2.mode
      ∧ (animStep s2 e).ticksRun = s2.ticksRun
      ∧ (animStep s2 e).completions = s2.completions)
    ∧ (∀ (s3 : AnimState) (e3 : AnimEvent),
        ((animStep s3 e3).ticksRun ≠ s3.ticksRun
          ∨ (animStep s3 e3).completions ≠ s3.completions) →
        s3.cancelled = false) := by
  have fold_pres : ∀ (evs : List AnimEvent) (t : AnimState), t.cancelled = true →
      (evs.foldl animStep t).mode = t.mode
      ∧ (evs.foldl animStep t).ticksRun = t.ticksRun
      ∧ (evs.foldl animStep t).completions = t.completions := by
    intro evs
    induction evs with
    | nil => intro t _; exact ⟨rfl, rfl, rfl⟩
    | cons e3 es ih =>
      intro t ht
      have h1 := animStep_cancelled t e3 ht
      have h2 := ih (animStep t e3) h1.2.2.2
      exact ⟨h2.1.trans h1.1, h2.2.1.trans h1.2.1, h2.2.2.trans h1.2.2.1⟩
  refine ⟨?_, ?_, ?_⟩
  · have := fold_pres events (cancelAnim s) rfl
    exact this
  · have h1 := animStep_cancelled s2 e hc2
    exact ⟨h1.1, h1.2.1, h1.2.2.1⟩
  · intro s3 e3 hne
    by_cases hc3 : s3.cancelled = true
    · have h1 := animStep_cancelled s3 e3 hc3
      rcases hne with hne | hne
      · exact absurd h1.2.1 hne
      · exact absurd h1.2.2.1 hne
    · simpa using hc3

/-- Witness for C2: cancelling the mid-flight session `animMid`, then letting
the fly-end listener, the pause timeout and two frames fire, leaves the
component state untouched. -/
theorem animator_cancellation_witness :
    (cancelAnim animMid).cancelled = true
    ∧ ([AnimEvent.flyEnd, AnimEvent.pauseFire, AnimEvent.frame 2000,
        AnimEvent.frame 9000].foldl animStep (cancelAnim animMid)).mode = animMid.mode :=
  ⟨by decide,
   (animator_cancellation animMid
      [AnimEvent.flyEnd, AnimEvent.pauseFire, AnimEvent.frame 2000, AnimEvent.frame 9000]
      (cancelAnim animMid) AnimEvent.flyEnd (by decide)).1.1⟩

/-- C8: `startMusic` is an idempotent no-op while a session is active (its
first line returns when `isPlaying`, before any construction — so at most one
session exists at a time, whether or not construction would be refused), and
`stopMusic` with no active session is a no-op that changes no audio state. -/
theorem audio_start_stop_noops :
    (∀ (flag : Bool) (s : AudioM), s.isPlaying = true →
        startMusicM flag s = (s, Except.ok ()))
    ∧ (∀ (now : Int) (s : AudioM), s.isPlaying = false → stopMusicM now s = s) := by
  constructor
  · intro flag s hs
    simp [startMusicM, hs]
  · intro now s hs
    simp [stopMusicM, hs]

/-- Witness for C8: a second `startMusic` on the active session and a
`stopMusic` on the idle module are both no-ops. -/
theorem audio_start_stop_noops_witness :
    (audioActive.isPlaying = true ∧ startMusicM true audioActive = (audioActive, Except.ok ()))
    ∧ (initAudio.isPlaying = false ∧ stopMusicM 0 initAudio = initAudio) :=
  ⟨⟨by decide, audio_start_stop_noops.1 true audioActive (by decide)⟩,
   ⟨by decide, audio_start_stop_noops.2 0 initAudio (by decide)⟩⟩

/-- C6 counterexample: with the host refusing audio construction,
`startMusic()` called on the freshly loaded module returns by propagating the
exception — the call does not fail silently as claimed, although the module
state (and hence `isMusicPlaying()`) is indeed unchanged. -/
theorem startMusic_refusal_counterexample :
    (startMusicM true initAudio).2 = Except.error ()
    ∧ (startMusicM true initAudio).1.isPlaying = false
    ∧ (startMusicM true initAudio).2 ≠ Except.ok () := by
  refine ⟨rfl, rfl, ?_⟩
  simp [startMusicM, initAudio]

/-- C6 amended: when the host refuses audio construction, the exception from
`new AudioContext()` propagates out of `startMusic` (there is no try/catch);
no module global is written, so `isMusicPlaying()` remains `false` and no
session is created; and in `toggleMusic` the `setMusicEnabled(true)` that
follows the call is never reached, so `musicEnabled` keeps its previous
value while the exception escapes the callback. -/
theorem startMusic_refused_propagates (s : AudioM) (e : Bool) (now : Int)
    (h : s.isPlaying = false) :
    startMusicM true s = (s, Except.error ())
    ∧ isMusicPlayingM (startMusicM true s).1 = false
    ∧ toggleMusicM true now e s = ((e, s), Except.error ()) := by
  have h1 : startMusicM true s = (s, Except.error ()) := by
    simp [startMusicM, h]
  refine ⟨h1, ?_, ?_⟩
  · rw [h1]
    simpa [isMusicPlayingM] using h
  · simp [toggleMusicM, isMusicPlayingM, h, h1]

/-- Witness for the amended C6 at the freshly loaded module. -/
theorem startMusic_refused_propagates_witness :
    initAudio.isPlaying = false
    ∧ startMusicM true initAudio = (initAudio, Except.error ()) :=
  ⟨by decide, (startMusic_refused_propagates initAudio true 0 (by decide)).1⟩

/-- C5 counterexample: from the audio subsystem's initial reachable state
`musicEnabled = true`, `isMusicPlaying() = false` (the component default
before any music has started), two successive `toggleMusic` calls end with
`musicEnabled = false` — the flag is *not* returned to its original value,
because the first toggle starts music and forces `musicEnabled := true`, and
the second stops it and forces `musicEnabled := false`. -/
theorem toggleMusic_twice_counterexample :
    (toggleMusicM false 1 (toggleMusicM false 0 true initAudio).1.1
        (toggleMusicM false 0 true initAudio).1.2).1.1 = false
    ∧ ¬ ((toggleMusicM false 1 (toggleMusicM false 0 true initAudio).1.1
        (toggleMusicM false 0 true initAudio).1.2).1.1 = true) := by
  refine ⟨rfl, ?_⟩
  intro h
  exact Bool.noConfusion h

/-- C5 amended: two successive `toggleMusic` calls restore `musicEnabled`
and `isMusicPlaying()` exactly when the two flags agreed to begin with (on a
consistent module state); the fade-out (1.5 s) completes strictly before the
delayed teardown (2 s) releases the session; but a `startMusic` issued
immediately after `stopMusic` begins *does* collide with the old session's
teardown: the teardown reads the global `schedulerTimer`, which by then
holds the new session's interval, clears it, and leaves the new session
without its scheduling loop. -/
theorem toggleMusic_fade_and_collision :
    (∀ (t1 t2 : Int) (e : Bool) (s : AudioM), AudioWF s → e = s.isPlaying →
        (toggleMusicM false t2 (toggleMusicM false t1 e s).1.1
            (toggleMusicM false t1 e s).1.2).1.1 = e
        ∧ (toggleMusicM false t2 (toggleMusicM false t1 e s).1.1
            (toggleMusicM false t1 e s).1.2).1.2.isPlaying = s.isPlaying)
    ∧ (∀ (now : Int) (c : Nat) (s : AudioM), s.isPlaying = true →
        s.ctxLive = some c → s.masterGain ≠ none →
        (stopMusicM now s).fadeOutEnd = some (now + FADE_OUT_MS)
        ∧ (now + TEARDOWN_DELAY_MS, c) ∈ (stopMusicM now s).pendingTeardown
        ∧ now + FADE_OUT_MS < now + TEARDOWN_DELAY_MS)
    ∧ ((startMusicM false (stopMusicM 5000 (startMusicM false initAudio).1)).1.schedulerTimer
          = some 3
        ∧ (fireTeardown (7000, 0)
            (startMusicM false (stopMusicM 5000 (startMusicM false initAudio).1)).1).schedulerTimer
          = none
        ∧ (fireTeardown (7000, 0)
            (startMusicM false (stopMusicM 5000 (startMusicM false initAudio).1)).1).clearedIntervals
          = [3]) := by
  refine ⟨?_, ?_, by decide⟩
  · intro t1 t2 e s hwf he
    cases hs : s.isPlaying with
    | true =>
      obtain ⟨hc, hg⟩ := hwf hs
      obtain ⟨c, hc2⟩ := Option.ne_none_iff_exists'.mp hc
      obtain ⟨g, hg2⟩ := Option.ne_none_iff_exists'.mp hg
      rw [he, hs]
      simp [toggleMusicM, isMusicPlayingM, stopMusicM, startMusicM, hs, hc2, hg2]
    | false =>
      rw [he, hs]
      simp [toggleMusicM, isMusicPlayingM, stopMusicM, startMusicM, hs]
  · intro now c s hs hc hg
    obtain ⟨g, hg2⟩ := Option.ne_none_iff_exists'.mp hg
    refine ⟨?_, ?_, ?_⟩
    · simp [stopMusicM, hs, hc, hg2]
    · simp [stopMusicM, hs, hc, hg2]
    · simp only [FADE_OUT_MS, TEARDOWN_DELAY_MS]
      omega

/-- Witness for the amended C5: double toggle from the idle module with
`musicEnabled = false`, fade-before-teardown on the active session, applied
at concrete inputs. -/
theorem toggleMusic_fade_and_collision_witness :
    ((AudioWF initAudio ∧ false = initAudio.isPlaying)
      ∧ (toggleMusicM false 1 (toggleMusicM false 0 false initAudio).1.1
          (toggleMusicM false 0 false initAudio).1.2).1.1 = false)
    ∧ ((audioActive.isPlaying = true ∧ audioActive.ctxLive = some 0
          ∧ audioActive.masterGain ≠ none)
      ∧ (stopMusicM 5000 audioActive).fadeOutEnd = some (5000 + FADE_OUT_MS)) :=
  ⟨⟨⟨fun h => absurd h (by decide), by decide⟩,
    (toggleMusic_fade_and_collision.1 0 1 false initAudio
      (fun h => absurd h (by decide)) (by decide)).1⟩,
   ⟨⟨by decide, by decide, by decide⟩,
    (toggleMusic_fade_and_collision.2.1 5000 0 audioActive (by decide) (by decide)
      (by decide)).1⟩⟩
